import Mathlib

set_option maxRecDepth 16384

/-
Verification of the arunya browser analytics tracker (AnalyticsTracker).
The definitions below are a shallow embedding of the tracker source:
JS objects become association lists, the durable IndexedDB store becomes a
list of records, timestamps become naturals, and the JS array heap (needed to
talk about reference versus copy semantics) becomes an explicit heap of lists.
-/

/-- A JSON value as produced by JSON.parse and carried in event payloads. -/
inductive JsonVal where
  | str (s : String)
  | num (n : Int)
  | boolean (b : Bool)
  | null
  | obj (fields : List (String × JsonVal))
  | arr (elems : List JsonVal)

/-- JS object property write: replace the value in place when the key exists,
append otherwise. -/
def objSet (o : List (String × α)) (k : String) (v : α) : List (String × α) :=
  if o.any (fun p => p.1 == k) then
    o.map (fun p => if p.1 == k then (k, v) else p)
  else o ++ [(k, v)]

/-- JS object property read: first binding for the key (objects built with
objSet hold each key once). -/
def objGet (o : List (String × α)) (k : String) : Option α :=
  (o.find? (fun p => p.1 == k)).map Prod.snd

/-- Spreading an arbitrary key-value list into an object: sequential property
writes, later entries overwriting earlier ones. -/
def objSpread (a b : List (String × α)) : List (String × α) :=
  b.foldl (fun acc p => objSet acc p.1 p.2) a

/-- Last binding of a key in a raw key-value list; this is the value JS spread
semantics retains for that key. -/
def lookupLast (o : List (String × α)) (k : String) : Option α :=
  match o with
  | [] => none
  | p :: rest =>
    match lookupLast rest k with
    | some v => some v
    | none => if p.1 == k then some p.2 else none

/-- JS number: finite integral value, NaN, or one of the infinities.  The
tracker only ever produces integral values so the finite case carries an Int. -/
inductive JSNumber where
  | fin (n : Int)
  | nan
  | posInf
  | negInf
deriving DecidableEq

/-- The session-timeout value supplied to the tracker: absent, a number, or a
string read from the script-tag attribute. -/
inductive JSTimeoutInput where
  | undef
  | num (x : JSNumber)
  | str (s : String)
deriving DecidableEq

/-- CONFIG.DEFAULT_SESSION_TIMEOUT = 30 * 60 * 1000 ms. -/
def DEFAULT_SESSION_TIMEOUT : Int := 30 * 60 * 1000

/-- Digit run to natural number, as parseInt accumulates base-10 digits. -/
def digitsToNat (ds : List Char) : Nat :=
  ds.foldl (fun a c => a * 10 + (c.toNat - 48)) 0

/-- JS parseInt(s, 10): skip leading whitespace, read an optional sign, then
the longest prefix of decimal digits; NaN when that prefix is empty. -/
def jsParseInt (s : String) : JSNumber :=
  let cs := s.data.dropWhile (fun c => c == ' ' || c == '\t' || c == '\n' || c == '\r')
  let signed : Bool × List Char :=
    match cs with
    | c :: rest =>
      if c == '-' then (true, rest)
      else if c == '+' then (false, rest)
      else (false, cs)
    | [] => (false, [])
  let ds := signed.2.takeWhile Char.isDigit
  if ds.isEmpty then JSNumber.nan
  else if signed.1 then JSNumber.fin (-(digitsToNat ds : Int))
  else JSNumber.fin (digitsToNat ds)

/-- validateSessionTimeout from the tracker:
parsed = typeof timeout === string ? parseInt(timeout, 10) : timeout;
return Number.isNaN(parsed) || parsed === undefined ? DEFAULT : parsed.
The Option models the JS value undefined flowing through parsed. -/
def validateSessionTimeout (timeout : JSTimeoutInput) : JSNumber :=
  let parsed : Option JSNumber :=
    match timeout with
    | .undef => none
    | .num x => some x
    | .str s => some (jsParseInt s)
  match parsed with
  | none => JSNumber.fin DEFAULT_SESSION_TIMEOUT
  | some x => if x = JSNumber.nan then JSNumber.fin DEFAULT_SESSION_TIMEOUT else x

example : validateSessionTimeout (.str "abc") = .fin DEFAULT_SESSION_TIMEOUT := by decide
example : validateSessionTimeout (.str "1234") = .fin 1234 := by decide
example : validateSessionTimeout (.num (.fin (-5))) = .fin (-5) := by decide
example : validateSessionTimeout (.num .posInf) = .posInf := by decide
example : validateSessionTimeout .undef = .fin DEFAULT_SESSION_TIMEOUT := by decide

/-- Browser and document state read by createBaseEventData. -/
structure BrowserCtx where
  now : Nat
  host : String
  path : String
  query : String
  referrer : String
  screenW : Nat
  screenH : Nat
  timezone : String

/-- The tracker state needed by the event composer and the rate limiter:
websiteId from config, the current session id, the in-memory copy of the
previous-session history, and the per-event-type throttle timestamps. -/
structure TrackerCore where
  websiteId : String
  sessionId : String
  previousSessionIds : List String
  lastEventTimestamps : List (String × Nat)

/-- CONFIG eventThrottleInterval = 500 ms. -/
def eventThrottleInterval : Nat := 500

/-- createBaseEventData: the payload object literal, field by field in source
order.  previousSessions is listed with the current contents of the history;
the reference-versus-copy question is modelled separately with an explicit
heap (see createBaseEventDataRef below). -/
def createBaseEventData (st : TrackerCore) (ctx : BrowserCtx) : List (String × JsonVal) :=
  [ ("type", .str ""),
    ("timestamp", .num ctx.now),
    ("url", .obj [("host", .str ctx.host), ("path", .str ctx.path), ("query", .str ctx.query)]),
    ("referrer", .str ctx.referrer),
    ("screen", .obj [("width", .num ctx.screenW), ("height", .num ctx.screenH)]),
    ("timezone", .str ctx.timezone),
    ("sessionId", .str st.sessionId),
    ("websiteId", .str st.websiteId),
    ("previousSessions", .arr (st.previousSessionIds.map .str)) ]

/-- isThrottled: reads the last accepted timestamp for the event type (0 when
absent); below the interval it reports throttled without touching state, at or
above it records now as the last accepted timestamp. -/
def isThrottled (st : TrackerCore) (eventType : String) (now : Nat) : Bool × TrackerCore :=
  let last := (objGet st.lastEventTimestamps eventType).getD 0
  if now - last < eventThrottleInterval then (true, st)
  else (false, { st with lastEventTimestamps := objSet st.lastEventTimestamps eventType now })

/-- track(event, data): throttle check first; when throttled nothing is
composed or sent (result none); otherwise the payload is the object literal
spread of the base data, the type field, and the caller data bag. -/
def track (st : TrackerCore) (ctx : BrowserCtx) (event : String)
    (data : List (String × JsonVal)) : Option (List (String × JsonVal)) × TrackerCore :=
  let thr := isThrottled st event ctx.now
  if thr.1 then (none, thr.2)
  else
    let base := createBaseEventData thr.2 ctx
    let payload := objSpread (objSet base "type" (.str event)) data
    (some payload, thr.2)

/-- ASCII uppercase test, matching the character class [A-Z]. -/
def charIsAsciiUpper (c : Char) : Bool :=
  65 ≤ c.toNat && c.toNat ≤ 90

/-- ASCII lowercasing of a single character. -/
def charLower (c : Char) : Char :=
  if charIsAsciiUpper c then Char.ofNat (c.toNat + 32) else c

/-- ASCII uppercasing of a single character. -/
def charUpper (c : Char) : Char :=
  if 97 ≤ c.toNat && c.toNat ≤ 122 then Char.ofNat (c.toNat - 32) else c

/-- Whether the first list is an initial segment of the second. -/
def listStartsWith : List Char → List Char → Bool
  | [], _ => true
  | _ :: _, [] => false
  | p :: ps, c :: cs => p == c && listStartsWith ps cs

/-- String startsWith, computed on the character lists. -/
def strStartsWith (s pre : String) : Bool :=
  listStartsWith pre.data s.data

/-- String endsWith, computed on the reversed character lists. -/
def strEndsWith (s suf : String) : Bool :=
  listStartsWith suf.data.reverse s.data.reverse

/-- Uppercase characters get a hyphen prepended: the regex replace of
([A-Z]) by -$1, applied globally. -/
def hyphenateUpperChars : List Char → List Char
  | [] => []
  | c :: rest =>
    if charIsAsciiUpper c then '-' :: c :: hyphenateUpperChars rest
    else c :: hyphenateUpperChars rest

/-- JS String.replace with a string pattern: only the first occurrence is
replaced. -/
def replaceFirstChars (pat repl : List Char) : List Char → List Char
  | [] => []
  | c :: rest =>
    if listStartsWith pat (c :: rest) then repl ++ (c :: rest).drop pat.length
    else c :: replaceFirstChars pat repl rest

/-- The DOM camelization that produces dataset keys from data-* attribute
names: drop a hyphen and uppercase the letter that follows it. -/
def camelizeChars : List Char → List Char
  | [] => []
  | '-' :: c :: rest => charUpper c :: camelizeChars rest
  | c :: rest => c :: camelizeChars rest

/-- Dataset key of a data-* attribute name: strip the leading data- and
camelize the remaining hyphenated name. -/
def datasetKeyOfAttr (attr : String) : String :=
  String.mk (camelizeChars (attr.data.drop 5))

/-- The dataset of an element, derived from its attribute list: every data-*
attribute, keyed by its camelized name. -/
def datasetOfAttrs (attrs : List (String × String)) : List (String × String) :=
  (attrs.filter (fun p => strStartsWith p.1 "data-")).map
    (fun p => (datasetKeyOfAttr p.1, p.2))

/-- extractCustomEventData, parameterized by the external JSON.parse primitive
(none models a parse exception).  For each dataset key that starts with arunya
and is neither arunyaEvent nor arunyaId: the normalized key drops the first
occurrence of arunya, prepends a hyphen to every uppercase letter, and
lowercases; a value bracketed by the two braces is parsed, and on parse
failure the raw value is stored under the original unnormalized key. -/
def extractCustomEventData (parse : String → Option JsonVal)
    (dataset : List (String × String)) : List (String × JsonVal) :=
  dataset.foldl
    (fun data kv =>
      if strStartsWith kv.1 "arunya" && !(kv.1 == "arunyaEvent" || kv.1 == "arunyaId") then
        let normalized :=
          String.mk ((hyphenateUpperChars (replaceFirstChars "arunya".data [] kv.1.data)).map charLower)
        if strStartsWith kv.2 "\x7b" && strEndsWith kv.2 "\x7d" then
          match parse kv.2 with
          | some j => objSet data normalized j
          | none => objSet data kv.1 (.str kv.2)
        else objSet data normalized (.str kv.2)
      else data)
    []

/-- A concrete stand-in for JSON.parse defined on the single document used by
the examples; the extraction logic under verification is independent of the
parser internals. -/
def jsonParseExample : String → Option JsonVal := fun s =>
  if s = "\x7b\"tier\":\"pro\"\x7d" then some (.obj [("tier", .str "pro")]) else none

/-- The element of the custom-event example: data-arunya-event plus a JSON
valued data-arunya-plan attribute. -/
def signupExampleAttrs : List (String × String) :=
  [("data-arunya-event", "signup"), ("data-arunya-plan", "\x7b\"tier\":\"pro\"\x7d")]

example : datasetOfAttrs signupExampleAttrs =
    [("arunyaEvent", "signup"), ("arunyaPlan", "\x7b\"tier\":\"pro\"\x7d")] := by decide

example : extractCustomEventData jsonParseExample (datasetOfAttrs signupExampleAttrs) =
    [("-plan", .obj [("tier", .str "pro")])] := rfl

/-- A heap of JS arrays of strings; array references are indices.  This makes
the distinction between copying an array and copying a reference to it
expressible. -/
structure SessionHeap where
  arrays : List (List String)

/-- Dereference an array. -/
def readArr (h : SessionHeap) (r : Nat) : List String :=
  h.arrays.getD r []

/-- In-place push onto the array behind a reference. -/
def pushArr (h : SessionHeap) (r : Nat) (v : String) : SessionHeap :=
  ⟨h.arrays.set r (h.arrays.getD r [] ++ [v])⟩

/-- Tracker fields relevant to payload composition, with the history held by
reference, as the class field previousSessionIds is. -/
structure TrackerRef where
  sessionId : String
  previousSessionIds : Nat

/-- Payload fields relevant to history aliasing.  The source line
previousSessions: this.previousSessionIds copies the array reference, not the
array, so the payload field is the same reference. -/
structure PayloadRef where
  sessionId : String
  previousSessions : Nat

/-- The previousSessions and sessionId fields of createBaseEventData, at the
reference level. -/
def createBaseEventDataRef (t : TrackerRef) : PayloadRef :=
  { sessionId := t.sessionId, previousSessions := t.previousSessionIds }

/-- The history mutation renewSession performs:
this.previousSessionIds.push(this.sessionId), then a fresh id is installed.
The durable-store bookkeeping is modelled separately (renewSession below). -/
def renewSessionRef (t : TrackerRef) (h : SessionHeap) (newId : String) :
    TrackerRef × SessionHeap :=
  ({ sessionId := newId, previousSessionIds := t.previousSessionIds },
   pushArr h t.previousSessionIds t.sessionId)

/-- A record of the durable previousSessions object store: in the IndexedDB
backend saveToIndexedDB writes an id together with the time it was archived. -/
structure SessionRec where
  id : String
  timestamp : Nat
deriving DecidableEq

/-- Which backend getDatabase hands back: the IndexedDB database when
window.indexedDB exists and opens, otherwise the localStorage fallback. -/
inductive StorageBackend where
  | idb
  | localFallback
deriving DecidableEq

/-- Session-manager state: current id, last-used time, in-memory history, and
the two durable stores the source can write - the IndexedDB object store of
timestamped records, and the JSON id array the localStorage fallback keeps
under the arunya.previousSessions key. -/
structure SessionState where
  sessionId : String
  lastUsed : Nat
  previousSessionIds : List String
  idbStore : List SessionRec
  localStore : List String
deriving DecidableEq

/-- Timestamp order used by cleanUpOldSessions when sorting ascending. -/
def recLE (a b : SessionRec) : Prop := a.timestamp ≤ b.timestamp

instance : DecidableRel recLE := fun a b => Nat.decLe a.timestamp b.timestamp

/-- The pruning body of cleanUpOldSessions, which the source reaches only
with an IDBDatabase in hand: when the store holds more than max records, sort
ascending by timestamp, take the oldest (length - max) as the deletion set,
and delete those records by id. -/
def cleanUpIdbStore (max : Nat) (store : List SessionRec) : List SessionRec :=
  if store.length > max then
    let sorted := store.insertionSort recLE
    let toDelete := sorted.take (store.length - max)
    store.filter (fun r => !(toDelete.any (fun d => d.id == r.id)))
  else store

/-- cleanUpOldSessions(max = 20): the entire body sits under the
db instanceof IDBDatabase guard, so with the localStorage fallback the call
prunes nothing. -/
def cleanUpOldSessions (backend : StorageBackend) (max : Nat)
    (st : SessionState) : SessionState :=
  match backend with
  | .idb => { st with idbStore := cleanUpIdbStore max st.idbStore }
  | .localFallback => st

/-- saveToIndexedDB: with the IndexedDB backend, add the record
\x7b id, timestamp: Date.now() \x7d; with the localStorage fallback, append
the bare id to the JSON array only when it is not already present - no
timestamp is stored there. -/
def saveToIndexedDB (backend : StorageBackend) (sessionId : String) (now : Nat)
    (st : SessionState) : SessionState :=
  match backend with
  | .idb => { st with idbStore := st.idbStore ++ [⟨sessionId, now⟩] }
  | .localFallback =>
    { st with localStore :=
        if st.localStore.contains sessionId then st.localStore
        else st.localStore ++ [sessionId] }

/-- renewSession: push the current id onto the in-memory history, archive it
through saveToIndexedDB, run cleanUpOldSessions, install the freshly
generated id, and reset lastUsed. -/
def renewSession (backend : StorageBackend) (newId : String) (now : Nat)
    (st : SessionState) : SessionState :=
  let st1 := { st with previousSessionIds := st.previousSessionIds ++ [st.sessionId] }
  let st2 := saveToIndexedDB backend st.sessionId now st1
  let st3 := cleanUpOldSessions backend 20 st2
  { st3 with sessionId := newId, lastUsed := now }

/-- periodicSessionCheck: renew exactly when now - lastUsed strictly exceeds
the configured timeout. -/
def periodicSessionCheck (backend : StorageBackend) (timeout : Nat)
    (newId : String) (now : Nat) (st : SessionState) : SessionState :=
  if now - st.lastUsed > timeout then renewSession backend newId now st else st

/-- Session id used by the concrete renewal runs. -/
def mkId (n : Nat) : String := "id" ++ toString n

/-- A fresh session state with empty history and empty stores. -/
def freshSession : SessionState :=
  { sessionId := mkId 0, lastUsed := 0, previousSessionIds := [], idbStore := [],
    localStore := [] }

/-- Twenty-five consecutive renewals from a fresh state on the given backend:
renewal k installs id (k+1) at time (k+1), archiving the id current at that
point. -/
def run25 (backend : StorageBackend) : SessionState :=
  (List.range 25).foldl
    (fun st k => renewSession backend (mkId (k + 1)) (k + 1) st) freshSession

example : (run25 .idb).idbStore.length = 20 := by decide
example : (run25 .idb).idbStore.map SessionRec.id
    = (List.range 20).map (fun k => mkId (k + 5)) := by decide
example : (run25 .idb).previousSessionIds = (List.range 25).map mkId := by decide
example : (run25 .localFallback).localStore.length = 25 := by decide

/-- Observable steps of the delivery pipeline, in order. -/
inductive DeliveryAction where
  | beaconAttempt
  | fetchAttempt (i : Nat)
  | sleep (ms : Nat)
  | logFailure
deriving DecidableEq

/-- Outcomes the environment hands the delivery code.  For the beacon, error
models sendBeacon throwing (for example when unsupported) and ok b its boolean
return; for fetch attempt i, error models a network throw and ok b the value
of res.ok. -/
structure DeliveryEnv where
  beacon : Except Unit Bool
  fetch : Nat → Except Unit Bool

/-- Whether the body of the try block of fetch attempt i completes: the fetch
must not throw and res.ok must hold, since the code throws on a non-ok
response. -/
def fetchAttemptOk (env : DeliveryEnv) (i : Nat) : Bool :=
  match env.fetch i with
  | .ok true => true
  | _ => false

/-- The retryFetch loop body, one constructor layer per remaining iteration:
try the fetch; on success return; on the last failed attempt log the failure;
otherwise sleep delay * 2 ^ i and continue.  remaining counts loop iterations
still allowed, so remaining = 1 is the final attempt. -/
def retryFetchGo (env : DeliveryEnv) (delay : Nat) : Nat → Nat → List DeliveryAction
  | 0, _ => []
  | remaining + 1, i =>
    if fetchAttemptOk env i then [.fetchAttempt i]
    else if remaining == 0 then [.fetchAttempt i, .logFailure]
    else .fetchAttempt i :: .sleep (delay * 2 ^ i) :: retryFetchGo env delay remaining (i + 1)

/-- retryFetch with the source defaults retries = 3 and delay = 500. -/
def retryFetch (env : DeliveryEnv) : List DeliveryAction :=
  retryFetchGo env 500 3 0

/-- sendEvent: nothing when the in-memory enabled flag is off; otherwise try
the beacon, and on a throw or a false return fall through to retryFetch.  The
result is the action trace, in an Except whose error case would be an
exception escaping to the caller. -/
def sendEventDelivery (enabled : Bool) (env : DeliveryEnv) :
    Except Unit (List DeliveryAction) :=
  if !enabled then .ok []
  else
    match env.beacon with
    | .ok true => .ok [.beaconAttempt]
    | .ok false => .ok (.beaconAttempt :: retryFetch env)
    | .error _ => .ok (.beaconAttempt :: retryFetch env)

/-- Whether the beacon transmission succeeds outright: no throw and a true
return. -/
def beaconOk (env : DeliveryEnv) : Bool :=
  match env.beacon with
  | .ok true => true
  | _ => false

/-- The delivery ladder exactly as the specification words it: a beacon
attempt first; when the beacon is unsupported or rejected, fetch attempts with
exponential backoff of base 500 ms and factor 2, at most 3 attempts in total;
after exhaustion the failure is logged.  Written independently of the source
translation to compare the two. -/
def sendEventLadderSpec (env : DeliveryEnv) : List DeliveryAction :=
  .beaconAttempt ::
    (if beaconOk env then []
     else if fetchAttemptOk env 0 then [.fetchAttempt 0]
     else if fetchAttemptOk env 1 then [.fetchAttempt 0, .sleep 500, .fetchAttempt 1]
     else if fetchAttemptOk env 2 then
       [.fetchAttempt 0, .sleep 500, .fetchAttempt 1, .sleep 1000, .fetchAttempt 2]
     else
       [.fetchAttempt 0, .sleep 500, .fetchAttempt 1, .sleep 1000, .fetchAttempt 2,
        .logFailure])

/-- Privacy state: the durable localStorage flag arunya.disabled and the
in-memory field enabled that sendEvent actually consults. -/
structure PrivacyState where
  storedDisabled : Bool
  enabled : Bool
deriving DecidableEq

/-- The constructor line: enabled = localStorage disabled flag is not true. -/
def constructEnabled (storedDisabled : Bool) : Bool := !storedDisabled

/-- Operations that can touch the privacy state.  externalStoreDisable is a
write to the durable flag that bypasses this instance, for example a second
tab of the same origin calling disable on its own tracker. -/
inductive PrivacyOp where
  | disableOp
  | enableOp
  | externalStoreDisable
deriving DecidableEq

/-- disable sets both the field and the stored flag; enable clears the stored
flag and sets the field; an external write changes only durable storage. -/
def applyPrivacyOp (st : PrivacyState) : PrivacyOp → PrivacyState
  | .disableOp => { st with enabled := false, storedDisabled := true }
  | .enableOp => { st with storedDisabled := false, enabled := true }
  | .externalStoreDisable => { st with storedDisabled := true }

/-- The guard at the top of sendEvent: transmission happens exactly when the
in-memory enabled field holds. -/
def sendEventTransmits (st : PrivacyState) : Bool := st.enabled

/-- A DOM element as the scanner sees it: tag name, whether it matches the
interactive selector set, its data-arunya-id attribute, and how many click
handlers are attached to it. -/
structure DomElem where
  tag : String
  matched : Bool
  arunyaId : Option String
  handlerCount : Nat
deriving DecidableEq

/-- DOM plus the WeakMap ownership registry; element identity is the index
into elems, and registry lists the indices holding a registered handler. -/
structure DomState where
  elems : List DomElem
  registry : List Nat
deriving DecidableEq

/-- setupEventListeners(element, index): build the synthetic id from tag and
scan index; set the id attribute when absent; attach a click handler and
register the element when the registry does not yet own it. -/
def setupEventListeners (st : DomState) (idx i : Nat) : DomState :=
  match st.elems[idx]? with
  | none => st
  | some e =>
    let newId := String.mk (e.tag.data.map charLower) ++ "-" ++ toString i
    let e1 := if e.arunyaId = none then { e with arunyaId := some newId } else e
    if st.registry.contains idx then
      { st with elems := st.elems.set idx e1 }
    else
      { st with
        elems := st.elems.set idx { e1 with handlerCount := e1.handlerCount + 1 }
        registry := idx :: st.registry }

/-- The per-element body of the scan loop: only elements still lacking the id
attribute are passed to setupEventListeners. -/
def visitElem (st : DomState) (idx i : Nat) : DomState :=
  match st.elems[idx]? with
  | none => st
  | some e => if e.arunyaId = none then setupEventListeners st idx i else st

/-- The forEach over the matched-element snapshot, with i the position inside
that snapshot. -/
def scanList (s : DomState) : List Nat → Nat → DomState
  | [], _ => s
  | idx :: rest, i => scanList (visitElem s idx i) rest (i + 1)

/-- setupElementTracking: snapshot the matched elements in document order and
visit each with its index in the snapshot. -/
def scanPass (st : DomState) : DomState :=
  scanList st ((st.elems.enum.filter (fun p => p.2.matched)).map Prod.fst) 0

/-- Teardown-relevant tracker state for disable and cleanup: the enabled
field, the stored flag, the interval timer, the mutation observer, the two
navigation listeners, and the handler registry. -/
structure TeardownState where
  enabled : Bool
  storedDisabled : Bool
  mutationObserver : Option Unit
  intervalId : Option Nat
  popstateListener : Bool
  hashchangeListener : Bool
  registry : List Nat
deriving DecidableEq

/-- cleanup: disconnect and clear the observer when present, remove both
navigation listeners, clear the interval when set, and drop the registry by
replacing the WeakMap with a fresh one. -/
def cleanup (st : TeardownState) : TeardownState :=
  let st1 :=
    match st.mutationObserver with
    | some _ => { st with mutationObserver := none }
    | none => st
  let st2 := { st1 with popstateListener := false, hashchangeListener := false }
  let st3 :=
    match st2.intervalId with
    | some _ => { st2 with intervalId := none }
    | none => st2
  { st3 with registry := [] }

/-- disable: clear the enabled field, set the durable flag, run cleanup. -/
def disableTracker (st : TeardownState) : TeardownState :=
  cleanup { st with enabled := false, storedDisabled := true }

/-- A concrete tracker core used by the throttle and override scenarios. -/
def coreX : TrackerCore :=
  { websiteId := "abc123", sessionId := "sess0", previousSessionIds := [],
    lastEventTimestamps := [] }

/-- A concrete browser context with a chosen clock value. -/
def ctxAt (n : Nat) : BrowserCtx :=
  { now := n, host := "example.org", path := "/home", query := "", referrer := "",
    screenW := 1280, screenH := 800, timezone := "UTC" }

/-- Claim C3 counterexample: a negative session timeout is not coerced to the
default.  validateSessionTimeout passes -5 through unchanged, while the claim
requires the documented default of 1800000 ms for every value that is not a
finite non-negative number. -/
theorem validateSessionTimeout_negative_cex :
    validateSessionTimeout (.num (.fin (-5))) = .fin (-5) ∧
    JSNumber.fin (-5) ≠ JSNumber.fin DEFAULT_SESSION_TIMEOUT := by
  decide

/-- Claim C3 (amended): the effective timeout is the default exactly for the
absent input, the NaN number, and strings whose parseInt is NaN; every other
input, including negative and non-finite numbers and numeric-prefixed strings,
is passed through as parsed. -/
theorem validateSessionTimeout_cases :
    validateSessionTimeout .undef = .fin DEFAULT_SESSION_TIMEOUT ∧
    validateSessionTimeout (.num .nan) = .fin DEFAULT_SESSION_TIMEOUT ∧
    (∀ s, jsParseInt s = .nan →
      validateSessionTimeout (.str s) = .fin DEFAULT_SESSION_TIMEOUT) ∧
    (∀ s, jsParseInt s ≠ .nan → validateSessionTimeout (.str s) = jsParseInt s) ∧
    (∀ x, x ≠ JSNumber.nan → validateSessionTimeout (.num x) = x) := by
  refine ⟨by decide, by decide, ?_, ?_, ?_⟩
  · intro s h
    simp [validateSessionTimeout, h]
  · intro s h
    simp [validateSessionTimeout, h]
  · intro x h
    simp [validateSessionTimeout, h]

/-- Witness for validateSessionTimeout_cases at concrete inputs. -/
theorem validateSessionTimeout_cases_witness :
    validateSessionTimeout (.str "abc") = .fin DEFAULT_SESSION_TIMEOUT ∧
    validateSessionTimeout (.str "1234") = .fin 1234 ∧
    validateSessionTimeout (.num (.fin 60000)) = .fin 60000 := by
  refine ⟨validateSessionTimeout_cases.2.2.1 "abc" (by decide), ?_,
    validateSessionTimeout_cases.2.2.2.2 (.fin 60000) (by decide)⟩
  have h := validateSessionTimeout_cases.2.2.2.1 "1234" (by decide)
  rw [h]
  decide

/-- Claim C9: disable is idempotent; a second call leaves the same terminal
state as the first (flag stored, timer cleared, observer disconnected,
navigation listeners removed, tracking disabled, registry dropped), and both
calls are total so no duplicate-teardown error can arise. -/
theorem disable_idempotent :
    ∀ st : TeardownState,
      disableTracker (disableTracker st) = disableTracker st ∧
      (disableTracker st).enabled = false ∧
      (disableTracker st).storedDisabled = true ∧
      (disableTracker st).mutationObserver = none ∧
      (disableTracker st).intervalId = none ∧
      (disableTracker st).popstateListener = false ∧
      (disableTracker st).hashchangeListener = false ∧
      (disableTracker st).registry = [] := by
  intro st
  obtain ⟨en, sd, mo, iv, pp, hc, reg⟩ := st
  cases mo <;> cases iv <;> simp [disableTracker, cleanup]

/-- Claim C1 counterexample: the composed payload does not carry a copy of the
history.  From a fresh tracker with an empty history, the payload composed
before renewal reads back an empty previousSessions list, but after
renewSession pushes the old id the same already-composed payload reads back
the mutated array: its previousSessions now holds the archived id. -/
theorem createBaseEventData_aliases_history_cex :
    readArr ⟨[[]]⟩ (createBaseEventDataRef ⟨"sessA", 0⟩).previousSessions = [] ∧
    readArr (renewSessionRef ⟨"sessA", 0⟩ ⟨[[]]⟩ "sessB").2
      (createBaseEventDataRef ⟨"sessA", 0⟩).previousSessions = ["sessA"] ∧
    (["sessA"] : List String) ≠ [] := by
  decide

/-- Claim C1 (amended): the previousSessions field of a composed payload
aliases the tracker history array, so the push performed by renewSession after
composition is visible through the payload: dereferencing it after renewal
yields the old history with the old session id appended. -/
theorem createBaseEventData_alias_renewSession_visible :
    ∀ (t : TrackerRef) (h : SessionHeap) (newId : String),
      t.previousSessionIds < h.arrays.length →
      (createBaseEventDataRef t).previousSessions = t.previousSessionIds ∧
      readArr (renewSessionRef t h newId).2 (createBaseEventDataRef t).previousSessions
        = readArr h t.previousSessionIds ++ [t.sessionId] := by
  intro t h newId hr
  refine ⟨rfl, ?_⟩
  simp only [renewSessionRef, createBaseEventDataRef, pushArr, readArr]
  rw [List.getD_eq_getElem?_getD, List.getD_eq_getElem?_getD,
    List.getElem?_set_eq_of_lt _ hr]
  simp

/-- Witness for createBaseEventData_alias_renewSession_visible on a concrete
heap. -/
theorem createBaseEventData_alias_witness :
    (createBaseEventDataRef ⟨"sessA", 0⟩).previousSessions = 0 ∧
    readArr (renewSessionRef ⟨"sessA", 0⟩ ⟨[["old1"]]⟩ "sessB").2
      (createBaseEventDataRef ⟨"sessA", 0⟩).previousSessions = ["old1", "sessA"] :=
  createBaseEventData_alias_renewSession_visible ⟨"sessA", 0⟩ ⟨[["old1"]]⟩ "sessB"
    (by decide)

/-- Claim C7 counterexample: the opt-out flag is cached, not re-read at send
time.  Starting from a freshly constructed enabled tracker, a durable-storage
write that bypasses this instance (for example disable called in another tab
of the same origin) leaves the in-memory field true, and sendEvent still
transmits although durable storage marks tracking disabled. -/
theorem sendEvent_stale_flag_cex :
    constructEnabled false = true ∧
    (applyPrivacyOp ⟨false, true⟩ .externalStoreDisable).storedDisabled = true ∧
    sendEventTransmits (applyPrivacyOp ⟨false, true⟩ .externalStoreDisable) = true := by
  decide

/-- The in-memory enabled field tracks the durable flag across any sequence of
this instance's own disable and enable calls. -/
theorem privacy_fold_invariant :
    ∀ (ops : List PrivacyOp) (st : PrivacyState),
      (∀ op ∈ ops, op ≠ PrivacyOp.externalStoreDisable) →
      st.enabled = !st.storedDisabled →
      (ops.foldl applyPrivacyOp st).enabled = !(ops.foldl applyPrivacyOp st).storedDisabled := by
  intro ops
  induction ops with
  | nil => intro st _ h; simpa using h
  | cons op rest ih =>
    intro st hops h
    have hop := hops op (by simp)
    have hrest : ∀ o ∈ rest, o ≠ PrivacyOp.externalStoreDisable := by
      intro o ho
      exact hops o (by simp [ho])
    cases op with
    | disableOp => exact ih _ hrest (by simp [applyPrivacyOp])
    | enableOp => exact ih _ hrest (by simp [applyPrivacyOp])
    | externalStoreDisable => exact absurd rfl hop

/-- Claim C7 (amended): sendEvent consults the in-memory enabled field, which
the constructor initializes from durable storage and which disable and enable
keep synchronized with it; hence as long as the durable flag changes only
through this instance's own disable and enable calls, the decision to transmit
matches the durably stored flag at send time.  An out-of-band storage write is
not seen until the next construction. -/
theorem privacy_flag_sync_spec :
    ∀ (d0 : Bool) (ops : List PrivacyOp),
      (∀ op ∈ ops, op ≠ PrivacyOp.externalStoreDisable) →
      (sendEventTransmits (ops.foldl applyPrivacyOp ⟨d0, constructEnabled d0⟩) = true ↔
        (ops.foldl applyPrivacyOp ⟨d0, constructEnabled d0⟩).storedDisabled = false) := by
  intro d0 ops hops
  have h := privacy_fold_invariant ops ⟨d0, constructEnabled d0⟩ hops (by simp [constructEnabled])
  unfold sendEventTransmits
  rw [h]
  cases (ops.foldl applyPrivacyOp ⟨d0, constructEnabled d0⟩).storedDisabled <;> simp

/-- Witness for privacy_flag_sync_spec: after disable then enable from an
enabled start, sendEvent transmits and the stored flag is clear. -/
theorem privacy_flag_sync_witness :
    sendEventTransmits
        ([PrivacyOp.disableOp, PrivacyOp.enableOp].foldl applyPrivacyOp
          ⟨false, constructEnabled false⟩) = true ↔
      ([PrivacyOp.disableOp, PrivacyOp.enableOp].foldl applyPrivacyOp
          ⟨false, constructEnabled false⟩).storedDisabled = false :=
  privacy_flag_sync_spec false [PrivacyOp.disableOp, PrivacyOp.enableOp] (by decide)

/-- Claim C2 (code bug): evaluating the custom-event extraction on the
documented example.  The element carries data-arunya-event equal to signup and
a JSON data-arunya-plan attribute; its dataset therefore holds arunyaEvent and
arunyaPlan; extraction excludes arunyaEvent and maps arunyaPlan to the key
-plan with the parsed JSON object as value - not to the key plan the claim and
the normalize-to-kebab-case comment in the source describe: replacing every
uppercase letter by a hyphen pair also hits the first letter left after the
prefix arunya is dropped, so the normalized key keeps a leading hyphen. -/
theorem extractCustomEventData_signup_example :
    datasetOfAttrs signupExampleAttrs =
      [("arunyaEvent", "signup"), ("arunyaPlan", "\x7b\"tier\":\"pro\"\x7d")] ∧
    extractCustomEventData jsonParseExample (datasetOfAttrs signupExampleAttrs) =
      [("-plan", .obj [("tier", .str "pro")])] ∧
    objGet (extractCustomEventData jsonParseExample (datasetOfAttrs signupExampleAttrs))
      "plan" = none ∧
    objGet (extractCustomEventData jsonParseExample (datasetOfAttrs signupExampleAttrs))
      "-plan" = some (.obj [("tier", .str "pro")]) := by
  refine ⟨by decide, rfl, rfl, rfl⟩

/-- Reading a key other than the one just written is unaffected by the
in-place branch of objSet. -/
theorem objGet_map_overwrite_ne (o : List (String × α)) (k : String) (v : α)
    (k2 : String) (h : k2 ≠ k) :
    objGet (o.map (fun p => if p.1 == k then (k, v) else p)) k2 = objGet o k2 := by
  induction o with
  | nil => rfl
  | cons q rest ih =>
    by_cases hq : q.1 = k
    · simp only [objGet, List.map_cons, List.find?] at ih ⊢
      rw [if_pos (by simp [hq])]
      have hk2 : (k == k2) = false := by simp [Ne.symm h]
      have hq2 : (q.1 == k2) = false := by simp [hq, Ne.symm h]
      simp only [hk2, hq2, cond_false]
      exact ih
    · simp only [objGet, List.map_cons, List.find?] at ih ⊢
      rw [if_neg (by simp [hq])]
      cases hq2 : (q.1 == k2) <;> simp only [cond_false, cond_true]
      exact ih

/-- When the key is present, the in-place branch of objSet makes its first
occurrence carry the new value. -/
theorem objGet_map_overwrite_self (o : List (String × α)) (k : String) (v : α)
    (ha : o.any (fun p => p.1 == k) = true) :
    objGet (o.map (fun p => if p.1 == k then (k, v) else p)) k = some v := by
  induction o with
  | nil => simp at ha
  | cons q rest ih =>
    by_cases hq : q.1 = k
    · simp only [objGet, List.map_cons, List.find?]
      rw [if_pos (by simp [hq])]
      simp
    · have ha2 : rest.any (fun p => p.1 == k) = true := by
        simpa [hq] using ha
      simp only [objGet, List.map_cons, List.find?]
      rw [if_neg (by simp [hq])]
      have hq2 : (q.1 == k) = false := by simp [hq]
      simp only [hq2, cond_false]
      exact ih ha2

/-- Characterization of a JS property write followed by a read. -/
theorem objGet_objSet (o : List (String × α)) (k : String) (v : α) (k2 : String) :
    objGet (objSet o k v) k2 = if k2 = k then some v else objGet o k2 := by
  unfold objSet
  by_cases ha : o.any (fun p => p.1 == k)
  · rw [if_pos ha]
    by_cases h : k2 = k
    · subst h
      rw [if_pos rfl]
      exact objGet_map_overwrite_self o k2 v ha
    · rw [if_neg h]
      exact objGet_map_overwrite_ne o k v k2 h
  · rw [if_neg ha]
    unfold objGet
    rw [List.find?_append]
    by_cases h : k2 = k
    · subst h
      have hnone : o.find? (fun p => p.1 == k2) = none := by
        rw [List.find?_eq_none]
        intro p hp hc
        exact ha (List.any_eq_true.mpr ⟨p, hp, hc⟩)
      simp [hnone, List.find?]
    · have hne : (k == k2) = false := by simp [Ne.symm h]
      have hlast : List.find? (fun p => p.1 == k2) [(k, v)] = none := by
        simp [List.find?, hne]
      rw [hlast]
      cases h2 : o.find? (fun p => p.1 == k2) <;> simp [h, h2]

/-- Spread semantics: reading a key from the spread of a raw key-value list
over an object yields the last binding in the list when present, else the
object value. -/
theorem objGet_objSpread (a : List (String × α)) (b : List (String × α)) (k : String) :
    objGet (objSpread a b) k =
      match lookupLast b k with
      | some v => some v
      | none => objGet a k := by
  induction b generalizing a with
  | nil => simp [objSpread, lookupLast]
  | cons p rest ih =>
    show objGet (objSpread (objSet a p.1 p.2) rest) k = _
    rw [ih]
    cases hl : lookupLast rest k with
    | some v => simp [lookupLast, hl]
    | none =>
      rw [objGet_objSet]
      simp only [lookupLast, hl]
      by_cases h : p.1 = k
      · simp [h]
      · simp [h, Ne.symm h]

/-- Full case unrolling of the three-attempt retry loop. -/
theorem retryFetch_cases (env : DeliveryEnv) :
    retryFetch env =
      (if fetchAttemptOk env 0 then [.fetchAttempt 0]
       else if fetchAttemptOk env 1 then [.fetchAttempt 0, .sleep 500, .fetchAttempt 1]
       else if fetchAttemptOk env 2 then
         [.fetchAttempt 0, .sleep 500, .fetchAttempt 1, .sleep 1000, .fetchAttempt 2]
       else
         [.fetchAttempt 0, .sleep 500, .fetchAttempt 1, .sleep 1000, .fetchAttempt 2,
          .logFailure]) := by
  show retryFetchGo env 500 3 0 = _
  by_cases h0 : fetchAttemptOk env 0 <;>
    by_cases h1 : fetchAttemptOk env 1 <;>
      by_cases h2 : fetchAttemptOk env 2 <;>
        simp [retryFetchGo, h0, h1, h2]

/-- Claim C6: for every enabled send and every behaviour of the beacon and
fetch primitives, sendEvent produces exactly the spec ladder - beacon first;
on beacon throw or rejection fetch attempts with sleeps of 500 then 1000 ms
between them, at most three attempts, stopping at the first success; a logged
failure after exhaustion - and it returns normally (the Except is ok) for
every environment, so no exception reaches the caller. -/
theorem sendEvent_delivery_ladder :
    ∀ env : DeliveryEnv, sendEventDelivery true env = .ok (sendEventLadderSpec env) := by
  intro env
  cases hb : env.beacon with
  | ok b =>
    cases b
    · simp [sendEventDelivery, sendEventLadderSpec, beaconOk, hb, retryFetch_cases]
    · simp [sendEventDelivery, sendEventLadderSpec, beaconOk, hb]
  | error e =>
    simp [sendEventDelivery, sendEventLadderSpec, beaconOk, hb, retryFetch_cases]

/-- Claim C4: the rate limiter is a fixed-window throttle keyed by the event
type string.  For a call arriving strictly less than 500 ms after the last
accepted call of the same type, track returns no payload and leaves the state
untouched, so nothing is composed or sent; at 500 ms or more the call is
accepted and the accepted timestamp moves to now.  Concretely, two calls to
track of type x fired 100 ms apart produce exactly one payload, and 600 ms
apart produce two. -/
theorem track_throttle_spec :
    (∀ (st : TrackerCore) (ctx : BrowserCtx) (e : String)
       (data : List (String × JsonVal)) (t0 : Nat),
      objGet st.lastEventTimestamps e = some t0 →
      (ctx.now - t0 < 500 → track st ctx e data = (none, st)) ∧
      (500 ≤ ctx.now - t0 →
        (track st ctx e data).1.isSome = true ∧
        objGet (track st ctx e data).2.lastEventTimestamps e = some ctx.now)) ∧
    ((track coreX (ctxAt 1000) "x" []).1.isSome = true ∧
     (track (track coreX (ctxAt 1000) "x" []).2 (ctxAt 1100) "x" []).1.isSome = false ∧
     (track (track coreX (ctxAt 1000) "x" []).2 (ctxAt 1600) "x" []).1.isSome = true) := by
  refine ⟨?_, rfl, rfl, rfl⟩
  intro st ctx e data t0 hlast
  constructor
  · intro hlt
    simp [track, isThrottled, eventThrottleInterval, hlast, hlt]
  · intro hge
    have hcond : ¬(ctx.now - t0 < eventThrottleInterval) := by
      simp only [eventThrottleInterval]
      omega
    constructor
    · simp [track, isThrottled, hlast, hcond]
    · simp [track, isThrottled, hlast, hcond, objGet_objSet]

/-- Witness for track_throttle_spec: with the last accepted x call recorded at
1000, a call at 1100 is dropped with the state untouched. -/
theorem track_throttle_spec_witness :
    track { coreX with lastEventTimestamps := [("x", 1000)] } (ctxAt 1100) "x" []
      = (none, { coreX with lastEventTimestamps := [("x", 1000)] }) :=
  (track_throttle_spec.1 { coreX with lastEventTimestamps := [("x", 1000)] }
    (ctxAt 1100) "x" [] 1000 (by decide)).1 (by decide)

/-- Claim C10: track spreads the caller data bag over the composed payload
after the base fields and the type field, so any caller-supplied binding for a
reserved key - sessionId, websiteId, timestamp, type - is the value the
payload hands to sendEvent.  Concretely, a data bag binding sessionId to
HIJACK yields a payload whose sessionId is HIJACK even though the composer
produced sess0. -/
theorem track_data_overrides_base :
    (∀ (st : TrackerCore) (ctx : BrowserCtx) (e : String)
       (data : List (String × JsonVal)) (k : String) (v : JsonVal)
       (p : List (String × JsonVal)),
      lookupLast data k = some v →
      (track st ctx e data).1 = some p →
      objGet p k = some v) ∧
    (objGet (createBaseEventData coreX (ctxAt 1000)) "sessionId" = some (.str "sess0") ∧
     objGet
       (objSpread
         (objSet (createBaseEventData coreX (ctxAt 1000)) "type" (.str "evt"))
         [("sessionId", .str "HIJACK")])
       "sessionId" = some (.str "HIJACK") ∧
     (track coreX (ctxAt 1000) "evt" [("sessionId", .str "HIJACK")]).1 =
       some (objSpread
         (objSet (createBaseEventData coreX (ctxAt 1000)) "type" (.str "evt"))
         [("sessionId", .str "HIJACK")])) := by
  refine ⟨?_, rfl, rfl, rfl⟩
  intro st ctx e data k v p hdata htrack
  by_cases hthr : (isThrottled st e ctx.now).1
  · simp [track, hthr] at htrack
  · simp only [track, hthr, if_neg, Bool.false_eq_true, if_false,
      Option.some.injEq] at htrack
    subst htrack
    rw [objGet_objSpread, hdata]

/-- Witness for track_data_overrides_base: the hijacking payload read back. -/
theorem track_data_overrides_base_witness :
    objGet
      (objSpread
        (objSet (createBaseEventData coreX (ctxAt 1000)) "type" (.str "evt"))
        [("sessionId", .str "HIJACK")])
      "sessionId" = some (.str "HIJACK") :=
  track_data_overrides_base.1 coreX (ctxAt 1000) "evt"
    [("sessionId", .str "HIJACK")] "sessionId" (.str "HIJACK")
    (objSpread
      (objSet (createBaseEventData coreX (ctxAt 1000)) "type" (.str "evt"))
      [("sessionId", .str "HIJACK")])
    rfl rfl

/-- Filtering out the records whose ids occur in a leading segment keeps
exactly the rest, when ids are unique across the whole list. -/
theorem filter_out_taken (l1 l2 : List SessionRec)
    (hnd : ((l1 ++ l2).map SessionRec.id).Nodup) :
    (l1 ++ l2).filter (fun r => !(l1.any (fun d => d.id == r.id))) = l2 := by
  have hdisj : ∀ d ∈ l1, ∀ a ∈ l2, d.id ≠ a.id := by
    intro d hd a ha
    rw [List.map_append] at hnd
    have h := (List.nodup_append.mp hnd).2.2
    intro hcontra
    exact h (List.mem_map_of_mem SessionRec.id hd)
      (hcontra ▸ List.mem_map_of_mem SessionRec.id ha)
  rw [List.filter_append]
  have h1 : l1.filter (fun r => !(l1.any (fun d => d.id == r.id))) = [] := by
    rw [List.filter_eq_nil_iff]
    intro a ha
    simp only [Bool.not_eq_true']
    intro hfalse
    have := List.any_eq_false.mp hfalse a ha
    simp at this
  have h2 : l2.filter (fun r => !(l1.any (fun d => d.id == r.id))) = l2 := by
    rw [List.filter_eq_self]
    intro a ha
    simp only [Bool.not_eq_true']
    rw [List.any_eq_false]
    intro d hd
    simp [hdisj d hd a ha]
  rw [h1, h2, List.nil_append]

/-- On a store already ascending by timestamp with unique ids, the IndexedDB
pruning body keeps exactly the newest max records: the oldest length - max
are evicted. -/
theorem cleanUpIdbStore_sorted (max : Nat) (store : List SessionRec)
    (hs : List.Sorted recLE store) (hnd : (store.map SessionRec.id).Nodup)
    (hlen : store.length > max) :
    cleanUpIdbStore max store = store.drop (store.length - max) := by
  unfold cleanUpIdbStore
  rw [if_pos hlen, List.Sorted.insertionSort_eq hs]
  have hsplit := List.take_append_drop (store.length - max) store
  calc store.filter
        (fun r => !((store.take (store.length - max)).any (fun d => d.id == r.id)))
      = (store.take (store.length - max) ++ store.drop (store.length - max)).filter
          (fun r => !((store.take (store.length - max)).any (fun d => d.id == r.id))) := by
        rw [hsplit]
    _ = store.drop (store.length - max) := by
        apply filter_out_taken
        rw [hsplit]
        exact hnd

/-- Claim C5 counterexample: the cap does not hold on the localStorage
fallback.  There cleanUpOldSessions prunes nothing (its whole body sits under
the IDBDatabase guard) and saveToIndexedDB appends bare untimestamped ids, so
25 renewals from a fresh state leave all 25 archived ids in the durable
history instead of 20. -/
theorem renewSession_fallback_no_prune_cex :
    (run25 .localFallback).localStore = (List.range 25).map mkId ∧
    (run25 .localFallback).localStore.length = 25 ∧ (25 : Nat) ≠ 20 := by
  decide

/-- Claim C5 (amended): the claimed renewal steps hold on the IndexedDB
backend: on expiry detected by the periodic check (strictly more than the
timeout since lastUsed), renewal archives the current id into the in-memory
history and the timestamped object store, prunes that store to the cap of 20
evicting oldest-timestamp-first (on an ascending store with unique ids the
pruned store is exactly the newest 20), issues the new id, and resets
lastUsed; 25 renewals from a fresh state leave exactly 20 stored records, the
20 most recently archived ids.  With the localStorage fallback the archive
instead appends the bare id only when absent, and no pruning ever happens. -/
theorem renewSession_history_spec :
    (∀ (backend : StorageBackend) (timeout : Nat) (newId : String) (now : Nat)
       (st : SessionState),
      (now - st.lastUsed ≤ timeout →
        periodicSessionCheck backend timeout newId now st = st) ∧
      (now - st.lastUsed > timeout →
        periodicSessionCheck backend timeout newId now st
          = renewSession backend newId now st ∧
        (renewSession backend newId now st).previousSessionIds
          = st.previousSessionIds ++ [st.sessionId] ∧
        (renewSession backend newId now st).sessionId = newId ∧
        (renewSession backend newId now st).lastUsed = now)) ∧
    (∀ (newId : String) (now : Nat) (st : SessionState),
      (renewSession .idb newId now st).idbStore
        = cleanUpIdbStore 20 (st.idbStore ++ [⟨st.sessionId, now⟩]) ∧
      (renewSession .localFallback newId now st).localStore
        = (if st.localStore.contains st.sessionId then st.localStore
           else st.localStore ++ [st.sessionId]) ∧
      (renewSession .localFallback newId now st).idbStore = st.idbStore) ∧
    (∀ store : List SessionRec, List.Sorted recLE store →
      (store.map SessionRec.id).Nodup → store.length > 20 →
      cleanUpIdbStore 20 store = store.drop (store.length - 20)) ∧
    ((run25 .idb).idbStore.length = 20 ∧
     (run25 .idb).idbStore.map SessionRec.id
       = (List.range 20).map (fun k => mkId (k + 5)) ∧
     (run25 .idb).previousSessionIds = (List.range 25).map mkId ∧
     (run25 .idb).idbStore.map SessionRec.id
       = (run25 .idb).previousSessionIds.drop 5) := by
  refine ⟨?_, ?_,
    fun store hs hnd hlen => cleanUpIdbStore_sorted 20 store hs hnd hlen,
    by decide, by decide, by decide, by decide⟩
  · intro backend timeout newId now st
    constructor
    · intro hle
      have : ¬(now - st.lastUsed > timeout) := by omega
      simp [periodicSessionCheck, this]
    · intro hgt
      refine ⟨by simp [periodicSessionCheck, hgt], ?_, ?_, ?_⟩ <;>
        cases backend <;> rfl
  · intro newId now st
    exact ⟨rfl, rfl, rfl⟩

/-- Witness for renewSession_history_spec: a concrete expiry triggers the
renewal, and pruning a concrete ascending 21-record store keeps the newest
20. -/
theorem renewSession_history_spec_witness :
    periodicSessionCheck .idb 10 "n1" 100 freshSession
      = renewSession .idb "n1" 100 freshSession ∧
    cleanUpIdbStore 20 ((List.range 21).map (fun k => ⟨mkId k, k⟩))
      = ((List.range 21).map (fun k => (⟨mkId k, k⟩ : SessionRec))).drop 1 := by
  constructor
  · exact ((renewSession_history_spec.1 .idb 10 "n1" 100 freshSession).2
      (by decide)).1
  · have h := renewSession_history_spec.2.2.1
      ((List.range 21).map (fun k => ⟨mkId k, k⟩)) (by decide) (by decide) (by decide)
    simpa using h

/-- A visit to a different element leaves this element and its registry
membership unchanged. -/
theorem visitElem_ne (s : DomState) (j i idx : Nat) (hne : j ≠ idx) :
    (visitElem s j i).elems[idx]? = s.elems[idx]? ∧
    (idx ∈ (visitElem s j i).registry ↔ idx ∈ s.registry) := by
  unfold visitElem setupEventListeners
  cases hj : s.elems[j]? with
  | none => exact ⟨rfl, Iff.rfl⟩
  | some e =>
    dsimp only
    by_cases hid : e.arunyaId = none
    · rw [if_pos hid]
      by_cases hreg : s.registry.contains j
      · rw [if_pos hreg]
        exact ⟨List.getElem?_set_ne hne, Iff.rfl⟩
      · rw [if_neg hreg]
        refine ⟨List.getElem?_set_ne hne, ?_⟩
        simp [List.mem_cons, Ne.symm hne]
    · rw [if_neg hid]
      exact ⟨rfl, Iff.rfl⟩

/-- A scan segment that never visits this element preserves it and its
registry membership. -/
theorem scanList_not_mem (origs : List Nat) :
    ∀ (s : DomState) (i idx : Nat), idx ∉ origs →
      (scanList s origs i).elems[idx]? = s.elems[idx]? ∧
      (idx ∈ (scanList s origs i).registry ↔ idx ∈ s.registry) := by
  induction origs with
  | nil => intro s i idx _; exact ⟨rfl, Iff.rfl⟩
  | cons j rest ih =>
    intro s i idx hmem
    have hj : j ≠ idx := fun h => hmem (by simp [h])
    have hrest : idx ∉ rest := fun h => hmem (by simp [h])
    have h1 := visitElem_ne s j i idx hj
    have h2 := ih (visitElem s j i) (i + 1) idx hrest
    exact ⟨h2.1.trans h1.1, h2.2.trans h1.2⟩

/-- Once an element carries an id attribute, any further scanning leaves it
untouched: every visit to it short-circuits at the attribute guard, and visits
to other elements do not reach it. -/
theorem scanList_preserve_some (origs : List Nat) :
    ∀ (s : DomState) (i idx : Nat) (e : DomElem),
      s.elems[idx]? = some e → e.arunyaId ≠ none →
      (scanList s origs i).elems[idx]? = some e := by
  induction origs with
  | nil => intro s i idx e he _; exact he
  | cons j rest ih =>
    intro s i idx e he hid
    show (scanList (visitElem s j i) rest (i + 1)).elems[idx]? = some e
    by_cases hj : j = idx
    · subst hj
      have hv : visitElem s j i = s := by
        unfold visitElem
        rw [he]
        dsimp only
        rw [if_neg hid]
      rw [hv]
      exact ih s (i + 1) j e he hid
    · have h1 := (visitElem_ne s j i idx hj).1
      exact ih _ (i + 1) idx e (h1.trans he) hid

/-- Crossing the scan segment before the element, visiting it, and crossing
the segment after it: a fresh matched element ends with exactly the assigned
id and exactly one handler. -/
theorem scanList_visits (a : List Nat) :
    ∀ (b : List Nat) (idx : Nat), idx ∉ a → idx ∉ b →
    ∀ (s : DomState) (i : Nat) (e : DomElem),
      s.elems[idx]? = some e → e.arunyaId = none → e.handlerCount = 0 →
      idx ∉ s.registry →
      (scanList s (a ++ idx :: b) i).elems[idx]?
        = some { e with
            arunyaId := some (String.mk (e.tag.data.map charLower) ++ "-"
              ++ toString (i + a.length))
            handlerCount := 1 } := by
  induction a with
  | nil =>
    intro b idx _ hb s i e he hid hcount hreg
    show (scanList (visitElem s idx i) b (i + 1)).elems[idx]? = _
    have hlt : idx < s.elems.length := by
      rcases List.getElem?_eq_some.mp he with ⟨h, _⟩
      exact h
    have hv : (visitElem s idx i).elems[idx]?
        = some { e with
            arunyaId := some (String.mk (e.tag.data.map charLower) ++ "-" ++ toString i)
            handlerCount := 1 } := by
      unfold visitElem setupEventListeners
      rw [he]
      dsimp only
      rw [if_pos hid, if_pos hid]
      have hcont : s.registry.contains idx = false := by
        simpa using hreg
      rw [hcont]
      simp only [Bool.false_eq_true, if_false]
      rw [List.getElem?_set_eq_of_lt _ hlt]
      rw [hcount]
    rw [scanList_preserve_some b (visitElem s idx i) (i + 1) idx _ hv (by simp)]
    simp
  | cons j a2 ih =>
    intro b idx ha hb s i e he hid hcount hreg
    have hj : j ≠ idx := fun h => ha (by simp [h])
    have ha2 : idx ∉ a2 := fun h => ha (by simp [h])
    show (scanList (visitElem s j i) (a2 ++ idx :: b) (i + 1)).elems[idx]? = _
    have h1 := visitElem_ne s j i idx hj
    have hres := ih b idx ha2 hb (visitElem s j i) (i + 1) e (h1.1.trans he) hid hcount
      (fun hmem => hreg (h1.2.mp hmem))
    rw [hres]
    have harith : i + 1 + a2.length = i + (j :: a2).length := by
      simp [List.length_cons]
      omega
    rw [harith]

/-- Claim C8: a matched element lacking the id attribute, with no handler and
not owned by the registry, ends one scan pass with exactly one assigned id
attribute and exactly one attached click handler, and a second scan pass over
the resulting document changes nothing about it: no second handler, no second
id. -/
theorem scanPass_attach_once :
    ∀ (st : DomState) (idx : Nat) (e : DomElem),
      st.elems[idx]? = some e → e.matched = true → e.arunyaId = none →
      e.handlerCount = 0 → idx ∉ st.registry →
      (∃ s, (scanPass st).elems[idx]?
        = some { e with arunyaId := some s, handlerCount := 1 }) ∧
      (scanPass (scanPass st)).elems[idx]? = (scanPass st).elems[idx]? := by
  intro st idx e he hm hid hcount hreg
  have henum : (idx, e) ∈ st.elems.enum := List.mem_enum_iff_getElem?.mpr he
  have hmem : idx ∈ (st.elems.enum.filter (fun p => p.2.matched)).map Prod.fst := by
    exact List.mem_map_of_mem Prod.fst (List.mem_filter.mpr ⟨henum, hm⟩)
  have hnodup : ((st.elems.enum.filter (fun p => p.2.matched)).map Prod.fst).Nodup := by
    have hsub : List.Sublist (st.elems.enum.filter (fun p => p.2.matched)) st.elems.enum :=
      List.filter_sublist st.elems.enum
    exact (List.nodup_enum_map_fst st.elems).sublist (hsub.map Prod.fst)
  obtain ⟨a, b, hsplit⟩ := List.append_of_mem hmem
  have hnd2 := hsplit ▸ hnodup
  have hb : idx ∉ b := by
    have := (List.nodup_append.mp hnd2).2.1
    intro hmemb
    exact (List.nodup_cons.mp this).1 hmemb
  have ha : idx ∉ a := by
    intro hmema
    exact (List.nodup_append.mp hnd2).2.2 hmema (List.mem_cons_self idx b)
  have hpass1 : (scanPass st).elems[idx]?
      = some { e with
          arunyaId := some (String.mk (e.tag.data.map charLower) ++ "-"
            ++ toString (0 + a.length))
          handlerCount := 1 } := by
    show (scanList st ((st.elems.enum.filter (fun p => p.2.matched)).map Prod.fst)
      0).elems[idx]? = _
    rw [hsplit]
    exact scanList_visits a b idx ha hb st 0 e he hid hcount hreg
  refine ⟨⟨String.mk (e.tag.data.map charLower) ++ "-" ++ toString (0 + a.length),
    hpass1⟩, ?_⟩
  have hpass2 := scanList_preserve_some
    (((scanPass st).elems.enum.filter (fun p => p.2.matched)).map Prod.fst)
    (scanPass st) 0 idx _ hpass1 (by simp)
  show (scanList (scanPass st) _ 0).elems[idx]? = _
  rw [hpass2, hpass1]

/-- Witness for scanPass_attach_once: a single fresh matched button. -/
theorem scanPass_attach_once_witness :
    (∃ s, (scanPass ⟨[⟨"BUTTON", true, none, 0⟩], []⟩).elems[0]?
      = some { tag := "BUTTON", matched := true, arunyaId := some s,
               handlerCount := 1 }) ∧
    (scanPass (scanPass ⟨[⟨"BUTTON", true, none, 0⟩], []⟩)).elems[0]?
      = (scanPass ⟨[⟨"BUTTON", true, none, 0⟩], []⟩).elems[0]? :=
  scanPass_attach_once ⟨[⟨"BUTTON", true, none, 0⟩], []⟩ 0
    ⟨"BUTTON", true, none, 0⟩ rfl rfl rfl rfl (by simp)
